import Mathlib

/-!
Verification of the API-gateway core (`src/gateway`) against its
natural-language specification.

The Python sources are shallowly embedded: timestamps and fractional token
counts become `ℚ` (exact arithmetic in place of IEEE floats), Python `int()`
truncation becomes `pyInt`, dictionaries become association lists or
functions, and the stateful stores become explicit state passing.
-/

namespace Gateway

/-- Python `int()` applied to a float truncates toward zero. -/
def pyInt (q : ℚ) : ℤ := if 0 ≤ q then ⌊q⌋ else ⌈q⌉

theorem pyInt_of_nonneg {q : ℚ} (h : 0 ≤ q) : pyInt q = ⌊q⌋ := by
  simp [pyInt, h]

/-! ## Rate limiting (`src/gateway/core/rate_limit.py`)

`RateLimitState` mirrors the dataclass of the same name.  `remaining` and
`reset_at` are Python ints that can be negative, hence `ℤ`. -/

structure RateLimitState where
  allowed : Bool
  remaining : ℤ
  limit : ℕ
  reset_at : ℤ
  retry_after : Option ℤ := none
  deriving Repr, DecidableEq

/-- Token-bucket persistence: the `(tokens, last_refill)` pair the store keeps
under one key (`RateLimitStore.get_bucket_state` / `set_bucket_state`). -/
structure Bucket where
  tokens : ℚ
  last_refill : ℚ
  deriving Repr, DecidableEq

/-- `bucket_capacity = burst if burst else limit` — Python truthiness makes
both `None` and `0` fall back to `limit`. -/
def bucketCapacity (limit : ℕ) (burst : Option ℕ) : ℕ :=
  match burst with
  | some b => if b = 0 then limit else b
  | none => limit

/-- `TokenBucketAlgorithm.check_limit` for one key, with the store contents
for that key passed in and the (possibly updated) contents returned.
`now` is the `time.time()` value.  Mirrors rate_limit.py lines 79–146:
a missing bucket is initialised to `capacity − 1` tokens and allowed;
otherwise tokens are refilled at `limit / window` per second and capped at
the capacity; a refilled count `< 1` denies without persisting, with
`retry_after = int((1 - tokens) / refill_rate) + 1` and
`reset_at = int(last_refill + window)`; otherwise one token is consumed,
`last_refill` is set to `now` and the new state persisted. -/
def checkLimitTB (st : Option Bucket) (limit window : ℕ) (burst : Option ℕ)
    (now : ℚ) : RateLimitState × Option Bucket :=
  let capacity : ℚ := bucketCapacity limit burst
  let rate : ℚ := (limit : ℚ) / (window : ℚ)
  match st with
  | none =>
      let tokens := capacity - 1
      (⟨true, pyInt tokens, limit, pyInt (now + window), none⟩,
        some ⟨tokens, now⟩)
  | some b =>
      let refilled := min capacity (b.tokens + (now - b.last_refill) * rate)
      if 1 ≤ refilled then
        let tokens := refilled - 1
        (⟨true, pyInt tokens, limit, pyInt (now + window), none⟩,
          some ⟨tokens, now⟩)
      else
        (⟨false, 0, limit, pyInt (b.last_refill + window),
            some (pyInt ((1 - refilled) / rate) + 1)⟩, st)

/-- Run a sequence of `check_limit` calls on one key, threading the stored
bucket and counting the calls whose returned state is allowed. -/
def tbRun (limit window : ℕ) (burst : Option ℕ) :
    Option Bucket × ℕ → List ℚ → Option Bucket × ℕ
  | acc, [] => acc
  | (st, c), t :: ts =>
      let r := checkLimitTB st limit window burst t
      tbRun limit window burst (r.2, c + if r.1.allowed then 1 else 0) ts

/-- C9: on a fresh key the initialization path admits unconditionally and
persists `capacity − 1` tokens; a falsy burst (`None` or `0`) defaults the
capacity to `limit`, so `limit = 0` stores `−1` tokens. -/
theorem tokenBucket_fresh_key_always_allowed
    (limit window : ℕ) (burst : Option ℕ) (now : ℚ) :
    (checkLimitTB none limit window burst now).1.allowed = true ∧
    (checkLimitTB none limit window burst now).2 =
      some ⟨(bucketCapacity limit burst : ℚ) - 1, now⟩ ∧
    bucketCapacity limit (some 0) = limit ∧
    bucketCapacity limit none = limit ∧
    (checkLimitTB none 0 window none now).2 = some ⟨-1, now⟩ := by
  refine ⟨rfl, rfl, rfl, rfl, ?_⟩
  simp [checkLimitTB, bucketCapacity]

/-! ### C1 — token-bucket admission bound -/

theorem chain_le_of_le {a b : ℚ} {l : List ℚ} (hab : a ≤ b)
    (h : List.Chain (· ≤ ·) b l) : List.Chain (· ≤ ·) a l := by
  cases l with
  | nil => exact List.Chain.nil
  | cons x l =>
      cases h with
      | cons hbx hx => exact List.Chain.cons (le_trans hab hbx) hx

theorem le_getLast_of_chain {a : ℚ} {l : List ℚ}
    (h : List.Chain (· ≤ ·) a l) :
    ∀ x ∈ a :: l, x ≤ List.getLast (a :: l) (List.cons_ne_nil a l) := by
  induction l generalizing a with
  | nil =>
      intro x hx
      simp only [List.mem_singleton] at hx
      simp [hx]
  | cons b l ih =>
      cases h with
      | cons hab hb =>
          intro x hx
          rw [List.getLast_cons (List.cons_ne_nil b l)]
          rcases List.mem_cons.mp hx with rfl | hx
          · exact le_trans hab (ih hb b (List.mem_cons_self b l))
          · exact ih hb x hx

theorem one_le_bucketCapacity {limit : ℕ} (burst : Option ℕ) (hl : 0 < limit) :
    1 ≤ bucketCapacity limit burst := by
  cases burst with
  | none => exact hl
  | some b =>
      by_cases hb : b = 0
      · simp [bucketCapacity, hb]; exact hl
      · simp [bucketCapacity, hb]; omega

/-- Potential-function invariant for a run of token-bucket checks starting
from an existing bucket: the allowed count plus the residual token credit
`tok' − rate · lr'` never increases, tokens stay nonnegative, and the
last-refill time never exceeds the largest call time. -/
theorem tbRun_bound (limit window : ℕ) (burst : Option ℕ)
    (hw : 0 < window) :
    ∀ (ts : List ℚ) (tok lr : ℚ) (c0 : ℕ) (T : ℚ),
      0 ≤ tok → List.Chain (· ≤ ·) lr ts → lr ≤ T → (∀ t ∈ ts, t ≤ T) →
      ∃ tok' lr',
        (tbRun limit window burst (some ⟨tok, lr⟩, c0) ts).1 =
            some ⟨tok', lr'⟩ ∧
          0 ≤ tok' ∧ lr' ≤ T ∧
          ((tbRun limit window burst (some ⟨tok, lr⟩, c0) ts).2 : ℚ) + tok' -
              ((limit : ℚ) / (window : ℚ)) * lr' ≤
            (c0 : ℚ) + tok - ((limit : ℚ) / (window : ℚ)) * lr := by
  intro ts
  induction ts with
  | nil =>
      intro tok lr c0 T htok _ hlrT _
      exact ⟨tok, lr, rfl, htok, hlrT, le_refl _⟩
  | cons t ts ih =>
      intro tok lr c0 T htok hchain hlrT hmem
      have hrate : (0 : ℚ) ≤ (limit : ℚ) / (window : ℚ) :=
        div_nonneg (Nat.cast_nonneg _) (Nat.cast_nonneg _)
      have hlt : lr ≤ t := (List.chain_cons.mp hchain).1
      have hchain' : List.Chain (· ≤ ·) t ts := (List.chain_cons.mp hchain).2
      have htT : t ≤ T := hmem t (List.mem_cons_self t ts)
      have hmem' : ∀ x ∈ ts, x ≤ T := fun x hx => hmem x (List.mem_cons_of_mem t hx)
      set rate : ℚ := (limit : ℚ) / (window : ℚ) with hrdef
      set refilled : ℚ :=
        min ((bucketCapacity limit burst : ℕ) : ℚ) (tok + (t - lr) * rate) with hrefdef
      by_cases h1 : 1 ≤ refilled
      · -- allowed step: consume a token, persist, last_refill := t
        have hstep :
            tbRun limit window burst (some ⟨tok, lr⟩, c0) (t :: ts) =
              tbRun limit window burst (some ⟨refilled - 1, t⟩, c0 + 1) ts := by
          simp only [tbRun, checkLimitTB, ← hrdef, ← hrefdef, if_pos h1]
          norm_num
        rw [hstep]
        have htok1 : 0 ≤ refilled - 1 := by linarith
        obtain ⟨tok', lr', heq, htok', hlr', hpot⟩ :=
          ih (refilled - 1) t (c0 + 1) T htok1 hchain' htT hmem'
        refine ⟨tok', lr', heq, htok', hlr', ?_⟩
        have hle : refilled ≤ tok + (t - lr) * rate := min_le_right _ _
        have : ((c0 + 1 : ℕ) : ℚ) + (refilled - 1) - rate * t ≤
            (c0 : ℚ) + tok - rate * lr := by
          push_cast
          nlinarith
        linarith
      · -- denied step: state and count unchanged
        have hstep :
            tbRun limit window burst (some ⟨tok, lr⟩, c0) (t :: ts) =
              tbRun limit window burst (some ⟨tok, lr⟩, c0) ts := by
          simp only [tbRun, checkLimitTB, ← hrdef, ← hrefdef, if_neg h1]
          norm_num
        rw [hstep]
        exact ih tok lr c0 T htok (chain_le_of_le hlt hchain') hlrT hmem'

/-- C1: across a sequence of `check_limit` calls on one key at non-decreasing
times starting from an empty store, the number of allowed outcomes is at most
`capacity + ⌊(limit / window) · (t_N − t_1)⌋`, where the capacity is the
configured burst defaulted to `limit` the way the code does
(`burst if burst else limit`). -/
theorem tokenBucket_admission_bound (limit window : ℕ) (burst : Option ℕ)
    (t0 : ℚ) (ts : List ℚ) (hl : 0 < limit) (hw : 0 < window)
    (hchain : List.Chain (· ≤ ·) t0 ts) :
    ((tbRun limit window burst (none, 0) (t0 :: ts)).2 : ℤ) ≤
      (bucketCapacity limit burst : ℤ) +
        ⌊((limit : ℚ) / (window : ℚ)) *
          (List.getLast (t0 :: ts) (List.cons_ne_nil t0 ts) - t0)⌋ := by
  have hrate : (0 : ℚ) ≤ (limit : ℚ) / (window : ℚ) :=
    div_nonneg (Nat.cast_nonneg _) (Nat.cast_nonneg _)
  have hcap : 1 ≤ bucketCapacity limit burst := one_le_bucketCapacity burst hl
  set T : ℚ := List.getLast (t0 :: ts) (List.cons_ne_nil t0 ts) with hTdef
  have hmemT : ∀ x ∈ t0 :: ts, x ≤ T := le_getLast_of_chain hchain
  have ht0T : t0 ≤ T := hmemT t0 (List.mem_cons_self t0 ts)
  have hfirst :
      tbRun limit window burst (none, 0) (t0 :: ts) =
        tbRun limit window burst
          (some ⟨(bucketCapacity limit burst : ℚ) - 1, t0⟩, 1) ts := by
    simp [tbRun, checkLimitTB]
  rw [hfirst]
  have htok0 : (0 : ℚ) ≤ (bucketCapacity limit burst : ℚ) - 1 := by
    have : (1 : ℚ) ≤ (bucketCapacity limit burst : ℚ) := by exact_mod_cast hcap
    linarith
  obtain ⟨tok', lr', _, htok', hlr', hpot⟩ :=
    tbRun_bound limit window burst hw ts
      ((bucketCapacity limit burst : ℚ) - 1) t0 1 T htok0
      hchain ht0T (fun x hx => hmemT x (List.mem_cons_of_mem t0 hx))
  set c :=
    (tbRun limit window burst
      (some ⟨(bucketCapacity limit burst : ℚ) - 1, t0⟩, 1) ts).2 with hcdef
  have hcq : (c : ℚ) ≤ (bucketCapacity limit burst : ℚ) +
      ((limit : ℚ) / (window : ℚ)) * (T - t0) := by
    have h1 : (c : ℚ) + tok' - ((limit : ℚ) / (window : ℚ)) * lr' ≤
        (1 : ℚ) + ((bucketCapacity limit burst : ℚ) - 1) -
          ((limit : ℚ) / (window : ℚ)) * t0 := by
      have h2 := hpot
      push_cast at h2 ⊢
      linarith
    nlinarith [mul_le_mul_of_nonneg_left hlr' hrate]
  have hfl : (c : ℤ) - (bucketCapacity limit burst : ℤ) ≤
      ⌊((limit : ℚ) / (window : ℚ)) * (T - t0)⌋ := by
    rw [Int.le_floor]
    push_cast
    linarith
  linarith

/-- Witness for C1: three calls at times 0, 0, 0 under
`limit = 2, window = 1, burst = none` admit at most `2 + ⌊2 · 0⌋ = 2`. -/
theorem tokenBucket_admission_bound_witness :
    (0 < 2 ∧ 0 < 1 ∧ List.Chain (· ≤ ·) (0 : ℚ) [0, 0]) ∧
    ((tbRun 2 1 none (none, 0) ((0 : ℚ) :: [0, 0])).2 : ℤ) ≤
      (bucketCapacity 2 none : ℤ) +
        ⌊((2 : ℚ) / (1 : ℚ)) *
          (List.getLast ((0 : ℚ) :: [0, 0]) (List.cons_ne_nil 0 [0, 0]) - 0)⌋ :=
  ⟨⟨by norm_num, by norm_num, by simp⟩,
    tokenBucket_admission_bound 2 1 none 0 [0, 0] (by norm_num) (by norm_num)
      (by simp)⟩

/-! ### C3 — denial postcondition of the token bucket

The spec claims `retry_after = ⌈(1 − tokens) / rate⌉ + 1` and
`reset_at = now + window` on denial.  The code computes
`int((1 - tokens) / refill_rate) + 1` (truncation, i.e. floor of a positive
value) and `int(last_refill + window)`. -/

/-- C3 counterexample: bucket `(tokens = 1/2, last_refill = 0)`,
`limit = 1, window = 3`, checked at `now = 1`.  The refilled count is
`5/6 < 1`, the code returns `retry_after = 1` where the claim's formula
`⌈(1 − 5/6)/(1/3)⌉ + 1` gives `2`, and `reset_at = 3` where the claim's
`now + window` gives `4`. -/
theorem tokenBucket_denial_formula_counterexample :
    (checkLimitTB (some ⟨1/2, 0⟩) 1 3 none 1).1.allowed = false ∧
    min ((1 : ℚ)) ((1 : ℚ)/2 + ((1 : ℚ) - 0) * ((1 : ℚ)/3)) = 5/6 ∧
    (checkLimitTB (some ⟨1/2, 0⟩) 1 3 none 1).1.retry_after = some 1 ∧
    (⌈((1 : ℚ) - 5/6) / ((1 : ℚ)/3)⌉ + 1 : ℤ) = 2 ∧
    (checkLimitTB (some ⟨1/2, 0⟩) 1 3 none 1).1.reset_at = 3 ∧
    pyInt ((1 : ℚ) + 3) = 4 ∧ (1 : ℤ) ≠ 2 ∧ (3 : ℤ) ≠ 4 := by
  have hr : checkLimitTB (some ⟨1/2, 0⟩) 1 3 none 1 =
      (⟨false, 0, 1, 3, some 1⟩, some ⟨1/2, 0⟩) := by
    norm_num [checkLimitTB, bucketCapacity, min_def, pyInt]
  have hc : (⌈((1 : ℚ) - 5/6) / ((1 : ℚ)/3)⌉ : ℤ) = 1 := by
    rw [show ((1 : ℚ) - 5/6) / ((1 : ℚ)/3) = 1/2 by norm_num]
    rw [Int.ceil_eq_iff] <;> norm_num
  exact ⟨by rw [hr], by norm_num, by rw [hr], by rw [hc]; norm_num,
    by rw [hr], by norm_num [pyInt], by norm_num, by norm_num⟩

/-- C3 as amended: on an existing bucket whose refilled token count is `< 1`,
`check_limit` denies with `retry_after = ⌊(1 − tokens)/rate⌋ + 1` and
`reset_at = ⌊last_refill + window⌋`, persisting nothing; when the refilled
count is `≥ 1` it allows with `reset_at = ⌊now + window⌋` and
`remaining = ⌊tokens⌋` after the decrement, persisting the decremented
bucket with `last_refill = now`. -/
theorem tokenBucket_denial_postcondition (tok lr : ℚ) (limit window : ℕ)
    (burst : Option ℕ) (now : ℚ)
    (hl : 0 < limit) (hw : 0 < window) (hlr : 0 ≤ lr) (hnow : 0 ≤ now) :
    (min ((bucketCapacity limit burst : ℕ) : ℚ)
        (tok + (now - lr) * ((limit : ℚ) / (window : ℚ))) < 1 →
      (checkLimitTB (some ⟨tok, lr⟩) limit window burst now).1 =
          ⟨false, 0, limit, ⌊lr + (window : ℚ)⌋,
            some (⌊(1 - min ((bucketCapacity limit burst : ℕ) : ℚ)
              (tok + (now - lr) * ((limit : ℚ) / (window : ℚ)))) /
                ((limit : ℚ) / (window : ℚ))⌋ + 1)⟩ ∧
        (checkLimitTB (some ⟨tok, lr⟩) limit window burst now).2 =
          some ⟨tok, lr⟩) ∧
    (1 ≤ min ((bucketCapacity limit burst : ℕ) : ℚ)
        (tok + (now - lr) * ((limit : ℚ) / (window : ℚ))) →
      (checkLimitTB (some ⟨tok, lr⟩) limit window burst now).1 =
          ⟨true, ⌊min ((bucketCapacity limit burst : ℕ) : ℚ)
              (tok + (now - lr) * ((limit : ℚ) / (window : ℚ))) - 1⌋,
            limit, ⌊now + (window : ℚ)⌋, none⟩ ∧
        (checkLimitTB (some ⟨tok, lr⟩) limit window burst now).2 =
          some ⟨min ((bucketCapacity limit burst : ℕ) : ℚ)
              (tok + (now - lr) * ((limit : ℚ) / (window : ℚ))) - 1, now⟩) := by
  have hwq : (0 : ℚ) < (window : ℚ) := by exact_mod_cast hw
  have hlq : (0 : ℚ) < (limit : ℚ) := by exact_mod_cast hl
  have hratepos : (0 : ℚ) < (limit : ℚ) / (window : ℚ) := div_pos hlq hwq
  set refilled : ℚ := min ((bucketCapacity limit burst : ℕ) : ℚ)
    (tok + (now - lr) * ((limit : ℚ) / (window : ℚ))) with hrefdef
  constructor
  · intro hlt
    have hnotle : ¬ 1 ≤ refilled := not_le.mpr hlt
    have hra : (0 : ℚ) ≤ (1 - refilled) / ((limit : ℚ) / (window : ℚ)) :=
      div_nonneg (by linarith) (le_of_lt hratepos)
    have hrs : (0 : ℚ) ≤ lr + (window : ℚ) := by linarith
    constructor
    · simp only [checkLimitTB, ← hrefdef, if_neg hnotle,
        pyInt_of_nonneg hra, pyInt_of_nonneg hrs]
    · simp only [checkLimitTB, ← hrefdef, if_neg hnotle]
  · intro hge
    have hrem : (0 : ℚ) ≤ refilled - 1 := by linarith
    have hrs : (0 : ℚ) ≤ now + (window : ℚ) := by linarith
    constructor
    · simp only [checkLimitTB, ← hrefdef, if_pos hge,
        pyInt_of_nonneg hrem, pyInt_of_nonneg hrs]
    · simp only [checkLimitTB, ← hrefdef, if_pos hge]

/-- Witness for the amended C3 at the counterexample's input. -/
theorem tokenBucket_denial_postcondition_witness :
    (0 < 1 ∧ 0 < 3 ∧ (0 : ℚ) ≤ 0 ∧ (0 : ℚ) ≤ 1) ∧
    (min ((bucketCapacity 1 none : ℕ) : ℚ)
        ((1 : ℚ)/2 + ((1 : ℚ) - 0) * ((1 : ℚ) / (3 : ℚ))) < 1 →
      (checkLimitTB (some ⟨1/2, 0⟩) 1 3 none 1).1 =
          ⟨false, 0, 1, ⌊(0 : ℚ) + (3 : ℚ)⌋,
            some (⌊(1 - min ((bucketCapacity 1 none : ℕ) : ℚ)
              ((1 : ℚ)/2 + ((1 : ℚ) - 0) * ((1 : ℚ) / (3 : ℚ)))) /
                ((1 : ℚ) / (3 : ℚ))⌋ + 1)⟩ ∧
        (checkLimitTB (some ⟨1/2, 0⟩) 1 3 none 1).2 = some ⟨1/2, 0⟩) :=
  ⟨⟨by norm_num, by norm_num, le_refl 0, by norm_num⟩,
    ((tokenBucket_denial_postcondition (1/2) 0 1 3 none 1 (by norm_num)
      (by norm_num) (le_refl 0) (by norm_num)).1)⟩

/-! ### C4 — store-failure policy
(`RateLimitEvaluator` in `src/gateway/middleware/ratelimit.py`) -/

/-- `RateLimitEvaluator._handle_store_failure` (ratelimit.py 233–260). -/
def handleStoreFailure (fail_mode : String) (rule_limit : ℕ) : RateLimitState :=
  if fail_mode = "open" then
    ⟨true, rule_limit, rule_limit, 0, none⟩
  else
    ⟨false, 0, rule_limit, 0, some 60⟩

/-- `RateLimitEvaluator.evaluate` (ratelimit.py 173–231).  The store health
probe result is `healthy`; the body of the `try` block (key generation plus
`algorithm.check_limit`) is abstracted as `body`, `Except.error` standing for
any step raising an exception. -/
def evaluate (fail_mode : String) (rule_limit : ℕ) (healthy : Bool)
    (body : Except Unit RateLimitState) : RateLimitState :=
  if !healthy then handleStoreFailure fail_mode rule_limit
  else
    match body with
    | .ok s => s
    | .error _ => handleStoreFailure fail_mode rule_limit

/-- C4: if the store reports unhealthy before evaluation or any evaluation
step raises, `evaluate` returns exactly the fail-mode state: open → allowed
with `remaining = limit`, `reset_at = 0`; closed → denied with
`retry_after = 60`. -/
theorem evaluate_store_failure_policy (rule_limit : ℕ) (healthy : Bool)
    (body : Except Unit RateLimitState)
    (hfail : healthy = false ∨ body = .error ()) :
    evaluate "open" rule_limit healthy body =
        ⟨true, rule_limit, rule_limit, 0, none⟩ ∧
      evaluate "closed" rule_limit healthy body =
        ⟨false, 0, rule_limit, 0, some 60⟩ := by
  rcases hfail with h | h
  · subst h
    constructor <;> simp [evaluate, handleStoreFailure]
  · subst h
    cases healthy <;> constructor <;> simp [evaluate, handleStoreFailure]

/-- Witness for C4: unhealthy store, `limit = 10`. -/
theorem evaluate_store_failure_policy_witness :
    (false = false ∨ (Except.ok (⟨true, 0, 0, 0, none⟩ : RateLimitState) :
        Except Unit RateLimitState) = .error ()) ∧
    evaluate "open" 10 false (.ok ⟨true, 0, 0, 0, none⟩) =
        ⟨true, 10, 10, 0, none⟩ ∧
      evaluate "closed" 10 false (.ok ⟨true, 0, 0, 0, none⟩) =
        ⟨false, 0, 10, 0, some 60⟩ :=
  ⟨Or.inl rfl,
    evaluate_store_failure_policy 10 false (.ok ⟨true, 0, 0, 0, none⟩)
      (Or.inl rfl)⟩

/-! ### C5 — error-envelope completeness

Each pipeline stage's literal JSON error body, as a key/value list.
Stages that include a timestamp take it as the `ts` parameter
(`datetime.utcnow().isoformat() + "Z"` at the call site). -/

/-- 504 body, `ProxyMiddleware.process` (proxy.py 380–387). -/
def proxyTimeoutBody (cid : String) : List (String × String) :=
  [("error", "gateway_timeout"),
   ("message", "Upstream service did not respond in time"),
   ("correlation_id", cid)]

/-- 502 body for connection errors, `ProxyMiddleware.process`
(proxy.py 400–407). -/
def proxyConnErrorBody (cid : String) : List (String × String) :=
  [("error", "bad_gateway"),
   ("message", "Could not connect to upstream service"),
   ("correlation_id", cid)]

/-- 502 body for other client errors, `ProxyMiddleware.process`
(proxy.py 420–427). -/
def proxyClientErrorBody (cid : String) : List (String × String) :=
  [("error", "bad_gateway"),
   ("message", "Error communicating with upstream service"),
   ("correlation_id", cid)]

/-- 500 body for unexpected errors, `ProxyMiddleware.process`
(proxy.py 439–446). -/
def proxyUnexpectedBody (cid : String) : List (String × String) :=
  [("error", "internal_error"),
   ("message", "An unexpected error occurred"),
   ("correlation_id", cid)]

/-- 401 body for a missing token, `AuthenticationMiddleware.process`
(auth.py 510–519). -/
def authMissingTokenBody (cid ts : String) : List (String × String) :=
  [("error", "invalid_token"), ("message", "Authentication required"),
   ("correlation_id", cid), ("timestamp", ts)]

/-- 401 body for an invalid token, `AuthenticationMiddleware.process`
(auth.py 532–541). -/
def authInvalidTokenBody (cid ts : String) : List (String × String) :=
  [("error", "invalid_token"),
   ("message", "Session token is invalid or expired"),
   ("correlation_id", cid), ("timestamp", ts)]

/-- 403 body, `AuthenticationMiddleware.process` (auth.py 561–569). -/
def authForbiddenBody (cid ts : String) : List (String × String) :=
  [("error", "forbidden"), ("message", "Access denied"),
   ("correlation_id", cid), ("timestamp", ts)]

/-- 429 body, `RateLimitingMiddleware.process` (ratelimit.py 386–394). -/
def rateLimitExceededBody (cid ts : String) : List (String × String) :=
  [("error", "rate_limit_exceeded"),
   ("message", "Too many requests, please try again later"),
   ("correlation_id", cid), ("timestamp", ts)]

/-- 404 body, `GatewayHandler.handle_request` (handler.py 77–86). -/
def notFoundBody (cid ts : String) : List (String × String) :=
  [("error", "not_found"),
   ("message", "The requested resource was not found"),
   ("correlation_id", cid), ("timestamp", ts)]

/-- 405 body, `GatewayHandler.handle_request` (handler.py 65–74). -/
def methodNotAllowedBody (method cid ts : String) : List (String × String) :=
  [("error", "method_not_allowed"),
   ("message", "Method " ++ method ++ " not allowed for this path"),
   ("correlation_id", cid), ("timestamp", ts)]

/-- 500 body of the error-trap stage, `ErrorHandlingMiddleware.process`
(middleware.py 332–340). -/
def errorTrapBody (cid ts : String) : List (String × String) :=
  [("error", "internal_error"),
   ("message", "An unexpected error occurred"),
   ("correlation_id", cid), ("timestamp", ts)]

def hasField (body : List (String × String)) (k : String) : Bool :=
  body.any (fun p => p.1 = k)

/-- The four envelope fields of spec §4.6. -/
def envelopeComplete (body : List (String × String)) : Bool :=
  hasField body "error" && hasField body "message" &&
    hasField body "correlation_id" && hasField body "timestamp"

/-- C5: every pipeline error body carries `error`, `message`,
`correlation_id` and `timestamp` — except the proxy's 504, 502 and 500
bodies, which omit `timestamp`, contradicting the spec's envelope contract
(and the code's own comment at middleware.py:330 citing it). -/
theorem error_envelope_timestamp (method cid ts : String) :
    envelopeComplete (authMissingTokenBody cid ts) = true ∧
    envelopeComplete (authInvalidTokenBody cid ts) = true ∧
    envelopeComplete (authForbiddenBody cid ts) = true ∧
    envelopeComplete (rateLimitExceededBody cid ts) = true ∧
    envelopeComplete (notFoundBody cid ts) = true ∧
    envelopeComplete (methodNotAllowedBody method cid ts) = true ∧
    envelopeComplete (errorTrapBody cid ts) = true ∧
    hasField (proxyTimeoutBody cid) "timestamp" = false ∧
    hasField (proxyConnErrorBody cid) "timestamp" = false ∧
    hasField (proxyClientErrorBody cid) "timestamp" = false ∧
    hasField (proxyUnexpectedBody cid) "timestamp" = false ∧
    envelopeComplete (proxyTimeoutBody cid) = false := by
  refine ⟨?_, ?_, ?_, ?_, ?_, ?_, ?_, ?_, ?_, ?_, ?_, ?_⟩ <;>
    simp [envelopeComplete, hasField, authMissingTokenBody,
      authInvalidTokenBody, authForbiddenBody, rateLimitExceededBody,
      notFoundBody, methodNotAllowedBody, errorTrapBody, proxyTimeoutBody,
      proxyConnErrorBody, proxyClientErrorBody, proxyUnexpectedBody]

/-! ### C7 — sliding-window monotonicity
(`SlidingWindowAlgorithm.check_limit`, rate_limit.py 233–299) -/

/-- `int(now / window) * window` (rate_limit.py 254). -/
def windowStart (window : ℕ) (now : ℚ) : ℤ := pyInt (now / window) * window

/-- The weighted count
`previous_window_count * (1 - progress) + current_window_count`
(rate_limit.py 261–267).  `counts` holds the store's per-window counters for
the checked key. -/
def swWeighted (counts : ℤ → ℕ) (window : ℕ) (now : ℚ) : ℚ :=
  let ws := windowStart window now
  (counts (ws - window) : ℚ) * (1 - (now - ws) / window) + counts ws

/-- `SlidingWindowAlgorithm.check_limit` for one key: deny without
incrementing when the weighted count reaches `limit`, else increment the
current window's counter and report `remaining` from the recomputed
weighted count. -/
def checkLimitSW (counts : ℤ → ℕ) (limit window : ℕ) (now : ℚ) :
    RateLimitState × (ℤ → ℕ) :=
  let ws := windowStart window now
  if (limit : ℚ) ≤ swWeighted counts window now then
    (⟨false, 0, limit, ws + window,
        some (pyInt (((ws + window : ℤ) : ℚ) - now))⟩, counts)
  else
    let counts' : ℤ → ℕ := fun w => if w = ws then counts ws + 1 else counts w
    let new_weighted : ℚ :=
      (counts (ws - window) : ℚ) * (1 - (now - ws) / window) +
        ((counts ws : ℚ) + 1)
    (⟨true, max 0 (pyInt ((limit : ℚ) - new_weighted)), limit,
        ws + window, none⟩, counts')

theorem checkLimitSW_allowed_iff (counts : ℤ → ℕ) (limit window : ℕ)
    (now : ℚ) :
    (checkLimitSW counts limit window now).1.allowed = true ↔
      swWeighted counts window now < (limit : ℚ) := by
  by_cases h : (limit : ℚ) ≤ swWeighted counts window now
  · simp [checkLimitSW, h, not_lt.mpr h]
  · simp [checkLimitSW, h, not_le.mp h]

/-- Store contents refuting the claim as stated (arbitrary fixed store):
a counter already sitting in a not-yet-reached window. -/
def swCexCounts : ℤ → ℕ :=
  fun w => if w = 10 then 4 else if w = 20 then 100 else 0

/-- C7 counterexample: with `limit = 5`, `window = 10` and fixed store
contents `{10 ↦ 4, 20 ↦ 100}`, the check at `t = 15` is allowed
(weighted count 4) but the check at `t' = 25 > t` on the same store is
denied (weighted count `4·½ + 100 = 102`). -/
theorem slidingWindow_monotonic_counterexample :
    (15 : ℚ) < 25 ∧
    (checkLimitSW swCexCounts 5 10 15).1.allowed = true ∧
    (checkLimitSW swCexCounts 5 10 25).1.allowed = false := by
  have h15 : windowStart 10 (15 : ℚ) = 10 := by
    norm_num [windowStart, pyInt]
  have h25 : windowStart 10 (25 : ℚ) = 20 := by
    norm_num [windowStart, pyInt]
  refine ⟨by norm_num, ?_, ?_⟩
  · rw [checkLimitSW_allowed_iff]
    norm_num [swWeighted, h15, swCexCounts]
  · have := (checkLimitSW_allowed_iff swCexCounts 5 10 25).not
    rw [Bool.not_eq_true] at this
    rw [this.mpr]
    rw [not_lt]
    norm_num [swWeighted, h25, swCexCounts]

theorem windowStart_eq_floor {window : ℕ} {now : ℚ} (h0 : 0 ≤ now) :
    windowStart window now = ⌊now / window⌋ * window := by
  rw [windowStart, pyInt_of_nonneg (div_nonneg h0 (Nat.cast_nonneg _))]

theorem windowStart_le {window : ℕ} (hw : 0 < window) {now : ℚ} (h0 : 0 ≤ now) :
    ((windowStart window now : ℤ) : ℚ) ≤ now := by
  rw [windowStart_eq_floor h0]
  have hwq : (0 : ℚ) < window := by exact_mod_cast hw
  have h1 : (⌊now / window⌋ : ℚ) ≤ now / window := Int.floor_le _
  push_cast
  calc (⌊now / window⌋ : ℚ) * window ≤ now / window * window :=
        mul_le_mul_of_nonneg_right h1 (le_of_lt hwq)
    _ = now := div_mul_cancel₀ now (ne_of_gt hwq)

theorem lt_windowStart_add {window : ℕ} (hw : 0 < window) {now : ℚ}
    (h0 : 0 ≤ now) :
    now < ((windowStart window now : ℤ) : ℚ) + window := by
  rw [windowStart_eq_floor h0]
  have hwq : (0 : ℚ) < window := by exact_mod_cast hw
  have h1 : now / window < ⌊now / window⌋ + 1 := Int.lt_floor_add_one _
  have h2 := mul_lt_mul_of_pos_right h1 hwq
  rw [div_mul_cancel₀ now (ne_of_gt hwq)] at h2
  push_cast
  nlinarith

theorem windowStart_mono {window : ℕ} (hw : 0 < window) {t t' : ℚ}
    (h0 : 0 ≤ t) (h : t ≤ t') :
    windowStart window t ≤ windowStart window t' := by
  rw [windowStart_eq_floor h0, windowStart_eq_floor (le_trans h0 h)]
  have hwq : (0 : ℚ) < window := by exact_mod_cast hw
  have hfl : ⌊t / window⌋ ≤ ⌊t' / window⌋ := by
    apply Int.floor_le_floor
    gcongr
  exact mul_le_mul_of_nonneg_right hfl (Int.ofNat_nonneg window)

theorem windowStart_step {window : ℕ} (hw : 0 < window) {t t' : ℚ}
    (h0 : 0 ≤ t) (h : t ≤ t')
    (hlt : windowStart window t < windowStart window t') :
    windowStart window t + window ≤ windowStart window t' := by
  rw [windowStart_eq_floor h0] at hlt ⊢
  rw [windowStart_eq_floor (le_trans h0 h)] at hlt ⊢
  have hwz : (0 : ℤ) < (window : ℤ) := by exact_mod_cast hw
  have hfl : ⌊t / window⌋ < ⌊t' / window⌋ := lt_of_mul_lt_mul_right hlt (le_of_lt hwz)
  nlinarith

/-- C7 as amended: the sliding-window decision is monotone in `now` for
store contents reachable without intervening checks — i.e. when every window
strictly after the current window of the earlier check has a zero counter.
An arbitrary fixed store (the claim's literal quantification) falsifies it,
see the counterexample. -/
theorem slidingWindow_monotonic_amended (counts : ℤ → ℕ) (limit window : ℕ)
    (t t' : ℚ) (hw : 0 < window) (h0 : 0 ≤ t) (htt : t ≤ t')
    (hfuture : ∀ w : ℤ, windowStart window t < w → counts w = 0)
    (hallow : (checkLimitSW counts limit window t).1.allowed = true) :
    (checkLimitSW counts limit window t').1.allowed = true := by
  rw [checkLimitSW_allowed_iff] at hallow ⊢
  have h0' : 0 ≤ t' := le_trans h0 htt
  have hwq : (0 : ℚ) < window := by exact_mod_cast hw
  simp only [swWeighted] at hallow ⊢
  set W := windowStart window t with hWdef
  set W' := windowStart window t' with hW'def
  have hWle : ((W : ℤ) : ℚ) ≤ t := windowStart_le hw h0
  have hWlt : t < ((W : ℤ) : ℚ) + window := lt_windowStart_add hw h0
  have hW'le : ((W' : ℤ) : ℚ) ≤ t' := windowStart_le hw h0'
  have hW'lt : t' < ((W' : ℤ) : ℚ) + window := lt_windowStart_add hw h0'
  have hmono : W ≤ W' := windowStart_mono hw h0 htt
  have hprog0 : 0 ≤ (t - (W : ℚ)) / window :=
    div_nonneg (by linarith) (le_of_lt hwq)
  have hprog1 : (t - (W : ℚ)) / window < 1 := by
    rw [div_lt_one hwq]; linarith
  have hprog0' : 0 ≤ (t' - (W' : ℚ)) / window :=
    div_nonneg (by linarith) (le_of_lt hwq)
  have hprog1' : (t' - (W' : ℚ)) / window < 1 := by
    rw [div_lt_one hwq]; linarith
  have hprevnn : (0 : ℚ) ≤ (counts (W - window) : ℚ) := Nat.cast_nonneg _
  have hcurrnn : (0 : ℚ) ≤ (counts W : ℚ) := Nat.cast_nonneg _
  have hXnn : (0 : ℚ) ≤
      (counts (W - window) : ℚ) * (1 - (t - (W : ℚ)) / window) :=
    mul_nonneg hprevnn (by linarith)
  have hlimpos : (0 : ℚ) < limit := by linarith
  rcases eq_or_lt_of_le hmono with hEq | hLt
  · -- same window: progress only grows, the weighted count only shrinks
    rw [← hEq]
    have hdivle : (t - (W : ℚ)) / window ≤ (t' - (W : ℚ)) / window := by
      gcongr
    nlinarith [mul_le_mul_of_nonneg_left hdivle hprevnn]
  · -- later window: the old current count becomes the previous count
    have hcurr' : counts W' = 0 := hfuture W' hLt
    have hstep : W + window ≤ W' := windowStart_step hw h0 htt hLt
    by_cases hprev' : W' - window = W
    · rw [hcurr', hprev']
      push_cast
      nlinarith [mul_nonneg hcurrnn hprog0']
    · have hWlt' : W < W' - window := by omega
      have hprev0 : counts (W' - window) = 0 := hfuture _ hWlt'
      rw [hcurr', hprev0]
      push_cast
      nlinarith

/-- Witness for the amended C7: empty store, `limit = 5`, `window = 10`,
checks at `t = 15` and `t' = 25`. -/
theorem slidingWindow_monotonic_amended_witness :
    (0 < 10 ∧ (0 : ℚ) ≤ 15 ∧ (15 : ℚ) ≤ 25 ∧
      (∀ w : ℤ, windowStart 10 (15 : ℚ) < w → (fun _ : ℤ => 0) w = 0) ∧
      (checkLimitSW (fun _ : ℤ => 0) 5 10 15).1.allowed = true) ∧
    (checkLimitSW (fun _ : ℤ => 0) 5 10 25).1.allowed = true := by
  have hallow : (checkLimitSW (fun _ : ℤ => 0) 5 10 15).1.allowed = true := by
    rw [checkLimitSW_allowed_iff]
    norm_num [swWeighted]
  exact ⟨⟨by norm_num, by norm_num, by norm_num, fun w _ => rfl, hallow⟩,
    slidingWindow_monotonic_amended (fun _ => 0) 5 10 15 25 (by norm_num)
      (by norm_num) (by norm_num) (fun w _ => rfl) hallow⟩

/-! ### C2 — revocation monotonicity
(`InMemorySessionStore`, session_store.py 511–663; `RedisSessionStore.delete`
behaves the same way for the revocation key, lines 393–395) -/

/-- `SessionData` (session_store.py 22–65); datetimes are ℚ instants, the
opaque `metadata` mapping is omitted.  `is_expired` is
`datetime.utcnow() >= expires_at` with the current time passed explicitly. -/
structure SessionData where
  session_id : String
  user_id : String
  username : String
  created_at : ℚ
  last_accessed_at : ℚ
  expires_at : ℚ
  revoked : Bool := false
  roles : List String := []
  permissions : List String := []
  ip_address : Option String := none
  device_fingerprint : Option String := none
  deriving Repr, DecidableEq

def SessionData.is_expired (d : SessionData) (now : ℚ) : Bool :=
  d.expires_at ≤ now

def SessionData.is_valid (d : SessionData) (now : ℚ) : Bool :=
  !d.is_expired now && !d.revoked

/-- Python-dict assignment on an association list: replace or insert. -/
def setKey {α : Type} (l : List (String × α)) (k : String) (v : α) :
    List (String × α) :=
  (k, v) :: l.filter (fun p => p.1 != k)

/-- `InMemorySessionStore.__init__`: `sessions` and `user_sessions` dicts
plus the `revoked` set (a list up to membership). -/
structure InMemorySessionStore where
  sessions : List (String × SessionData)
  user_sessions : List (String × List String)
  revoked : List String
  deriving Repr, DecidableEq

/-- `InMemorySessionStore.delete` (session_store.py 579–599): pop the
session, drop the id from the user's index, and *discard the revocation
marker*; always returns `True`. -/
def InMemorySessionStore.deleteOp (st : InMemorySessionStore)
    (sid : String) : InMemorySessionStore × Bool :=
  let sdata := List.lookup sid st.sessions
  let sessions' := st.sessions.filter (fun p => p.1 != sid)
  let user_sessions' :=
    match sdata with
    | some d =>
        st.user_sessions.map
          (fun p => if p.1 = d.user_id then (p.1, p.2.erase sid) else p)
    | none => st.user_sessions
  (⟨sessions', user_sessions', st.revoked.filter (fun x => x != sid)⟩, true)

/-- `InMemorySessionStore.get` (session_store.py 548–563): an expired
session is deleted on read and reported missing. -/
def InMemorySessionStore.getOp (st : InMemorySessionStore) (sid : String)
    (now : ℚ) : Option SessionData × InMemorySessionStore :=
  match List.lookup sid st.sessions with
  | some d => if d.is_expired now then (none, (st.deleteOp sid).1) else (some d, st)
  | none => (none, st)

/-- `InMemorySessionStore.update` (session_store.py 565–577). -/
def InMemorySessionStore.updateOp (st : InMemorySessionStore)
    (d : SessionData) : InMemorySessionStore × Bool :=
  if (List.lookup d.session_id st.sessions).isSome then
    ({ st with sessions := setKey st.sessions d.session_id d }, true)
  else (st, false)

/-- `InMemorySessionStore.create` (session_store.py 530–546). -/
def InMemorySessionStore.createOp (st : InMemorySessionStore)
    (d : SessionData) : InMemorySessionStore × Bool :=
  let sessions' := setKey st.sessions d.session_id d
  let user_sessions' :=
    match List.lookup d.user_id st.user_sessions with
    | some l => setKey st.user_sessions d.user_id (l ++ [d.session_id])
    | none => setKey st.user_sessions d.user_id [d.session_id]
  (⟨sessions', user_sessions', st.revoked⟩, true)

/-- `InMemorySessionStore.revoke` (session_store.py 601–617): `get` the
session (deleting it if expired), and on success set the record's `revoked`
flag (the Python mutation aliases the stored object) and add the id to the
revocation set. -/
def InMemorySessionStore.revokeOp (st : InMemorySessionStore) (sid : String)
    (now : ℚ) : InMemorySessionStore × Bool :=
  let r := st.getOp sid now
  match r.1 with
  | some d =>
      let st2 := { r.2 with
        sessions := setKey r.2.sessions sid { d with revoked := true } }
      ({ st2 with revoked := sid :: st2.revoked }, true)
  | none => (r.2, false)

/-- `InMemorySessionStore.is_revoked` (session_store.py 637–646). -/
def InMemorySessionStore.isRevoked (st : InMemorySessionStore)
    (sid : String) : Bool :=
  decide (sid ∈ st.revoked)

/-- `InMemorySessionStore.cleanup_expired` (session_store.py 648–663). -/
def InMemorySessionStore.cleanupOp (st : InMemorySessionStore) (now : ℚ) :
    InMemorySessionStore × ℕ :=
  let expired :=
    (st.sessions.filter (fun p => p.2.is_expired now)).map (fun p => p.1)
  (expired.foldl (fun s sid => (s.deleteOp sid).1) st, expired.length)

/-- One store mutation, with the wall-clock instants of time-dependent
operations made explicit. -/
inductive SessionOp where
  | create (d : SessionData)
  | get (sid : String) (now : ℚ)
  | update (d : SessionData)
  | delete (sid : String)
  | revoke (sid : String) (now : ℚ)
  | cleanup (now : ℚ)

def applySessionOp (st : InMemorySessionStore) : SessionOp → InMemorySessionStore
  | .create d => (st.createOp d).1
  | .get sid now => (st.getOp sid now).2
  | .update d => (st.updateOp d).1
  | .delete sid => (st.deleteOp sid).1
  | .revoke sid now => (st.revokeOp sid now).1
  | .cleanup now => (st.cleanupOp now).1

def applySessionOps (st : InMemorySessionStore) (ops : List SessionOp) :
    InMemorySessionStore :=
  ops.foldl applySessionOp st

/-- Operations that can remove `s` from the revocation set: a delete of `s`,
a get or revoke of `s` (which delete it when expired), or `cleanup_expired`. -/
def mayDropRevocation (s : String) : SessionOp → Bool
  | .delete sid => sid == s
  | .get sid _ => sid == s
  | .revoke sid _ => sid == s
  | .cleanup _ => true
  | _ => false

def cexSession : SessionData :=
  { session_id := "s1", user_id := "u1", username := "alice",
    created_at := 0, last_accessed_at := 0, expires_at := 100 }

def cexStore : InMemorySessionStore :=
  ⟨[("s1", cexSession)], [("u1", ["s1"])], []⟩

/-- C2 counterexample: a successful `revoke("s1")` followed by
`delete("s1")` makes `is_revoked("s1")` return `false` again —
`delete` discards the revocation marker (session_store.py:598; the Redis
variant deletes the revocation key, lines 393–395). -/
theorem revocation_monotonicity_counterexample :
    (cexStore.revokeOp "s1" 0).2 = true ∧
    ((cexStore.revokeOp "s1" 0).1.isRevoked "s1") = true ∧
    ((applySessionOp (cexStore.revokeOp "s1" 0).1 (.delete "s1")).isRevoked
      "s1") = false := by
  refine ⟨?_, ?_, ?_⟩ <;> decide

theorem isRevoked_deleteOp (st : InMemorySessionStore) {s sid : String}
    (h : s ≠ sid) :
    ((st.deleteOp sid).1.isRevoked s) = st.isRevoked s := by
  simp only [InMemorySessionStore.deleteOp, InMemorySessionStore.isRevoked]
  rw [decide_eq_decide]
  simp [List.mem_filter, h]

theorem isRevoked_getOp (st : InMemorySessionStore) {s sid : String}
    (h : s ≠ sid) (now : ℚ) :
    ((st.getOp sid now).2.isRevoked s) = st.isRevoked s := by
  unfold InMemorySessionStore.getOp
  cases List.lookup sid st.sessions with
  | none => rfl
  | some d =>
      by_cases he : d.is_expired now
      · simp only [he, if_true]
        exact isRevoked_deleteOp st h
      · simp [he]

theorem isRevoked_applySessionOp (st : InMemorySessionStore) (s : String)
    (op : SessionOp) (hrev : st.isRevoked s = true)
    (hop : mayDropRevocation s op = false) :
    (applySessionOp st op).isRevoked s = true := by
  cases op with
  | create d =>
      simpa [applySessionOp, InMemorySessionStore.createOp,
        InMemorySessionStore.isRevoked] using hrev
  | update d =>
      by_cases hmem : (List.lookup d.session_id st.sessions).isSome
      · simpa [applySessionOp, InMemorySessionStore.updateOp, hmem,
          InMemorySessionStore.isRevoked] using hrev
      · simpa [applySessionOp, InMemorySessionStore.updateOp, hmem,
          InMemorySessionStore.isRevoked] using hrev
  | delete sid =>
      have h : s ≠ sid := by
        simp only [mayDropRevocation, beq_eq_false_iff_ne] at hop
        exact fun he => hop he.symm
      rw [applySessionOp, isRevoked_deleteOp st h]
      exact hrev
  | get sid now =>
      have h : s ≠ sid := by
        simp only [mayDropRevocation, beq_eq_false_iff_ne] at hop
        exact fun he => hop he.symm
      rw [applySessionOp, isRevoked_getOp st h]
      exact hrev
  | revoke sid now =>
      have h : s ≠ sid := by
        simp only [mayDropRevocation, beq_eq_false_iff_ne] at hop
        exact fun he => hop he.symm
      have hget : ((st.getOp sid now).2.isRevoked s) = true := by
        rw [isRevoked_getOp st h]; exact hrev
      simp only [applySessionOp, InMemorySessionStore.revokeOp]
      cases (st.getOp sid now).1 with
      | some d =>
          simp only [InMemorySessionStore.isRevoked] at hget ⊢
          rw [decide_eq_true_iff] at hget
          simpa using Or.inr hget
      | none => exact hget
  | cleanup now => simp [mayDropRevocation] at hop

/-- C2 as amended: once `is_revoked(s)` holds it keeps holding across any
sequence of store operations that never deletes `s`'s entry — no
`delete(s)`, no `get(s)`/`revoke(s)` (which delete on expiry), and no
`cleanup_expired`.  A `delete(s)` after `revoke(s)` does make
`is_revoked(s)` return `false` (see the counterexample). -/
theorem revocation_monotonic_amended (s : String)
    (st : InMemorySessionStore) (ops : List SessionOp)
    (hrev : st.isRevoked s = true)
    (hops : ∀ op ∈ ops, mayDropRevocation s op = false) :
    (applySessionOps st ops).isRevoked s = true := by
  induction ops generalizing st with
  | nil => exact hrev
  | cons op ops ih =>
      have h1 := isRevoked_applySessionOp st s op hrev
        (hops op (List.mem_cons_self op ops))
      exact ih (applySessionOp st op) h1
        (fun o ho => hops o (List.mem_cons_of_mem op ho))

/-- Witness for the amended C2: marker for `"s1"`, one delete of a
different id. -/
theorem revocation_monotonic_amended_witness :
    ((⟨[], [], ["s1"]⟩ : InMemorySessionStore).isRevoked "s1" = true ∧
      (∀ op ∈ [SessionOp.delete "s2"], mayDropRevocation "s1" op = false)) ∧
    (applySessionOps ⟨[], [], ["s1"]⟩ [SessionOp.delete "s2"]).isRevoked
      "s1" = true := by
  have h1 : (⟨[], [], ["s1"]⟩ : InMemorySessionStore).isRevoked "s1" = true := by
    simp [InMemorySessionStore.isRevoked]
  have h2 : ∀ op ∈ [SessionOp.delete "s2"],
      mayDropRevocation "s1" op = false := by
    intro op hop
    simp only [List.mem_singleton] at hop
    subst hop
    simp [mayDropRevocation]
  exact ⟨⟨h1, h2⟩,
    revocation_monotonic_amended "s1" ⟨[], [], ["s1"]⟩
      [SessionOp.delete "s2"] h1 h2⟩

/-! ### C6 / C10 — routing (`src/gateway/core/routing.py`) -/

/-- A compiled pattern segment: literal, or `([^/]+)` capture for a
parameter. -/
inductive Seg where
  | lit (s : String)
  | param (name : String)
  deriving Repr, DecidableEq

def wordChar (c : Char) : Bool := c.isAlphanum || c == '_'

/-- `str.split(sep)` on a character list (Python semantics: keeps empty
pieces, `""` gives one empty piece). -/
def splitSlashChars : List Char → List (List Char)
  | [] => [[]]
  | c :: cs =>
      let r := splitSlashChars cs
      if c = '/' then [] :: r
      else
        match r with
        | h :: t => (c :: h) :: t
        | [] => [[c]]

/-- `pattern.split("/")`. -/
def splitSlash (s : String) : List String :=
  (splitSlashChars s.toList).map (fun l => String.mk l)

/-- `re.match(r"^\{(\w+)\}$", part)` (routing.py 69): the whole part is
`{name}` with a nonempty word `name`. -/
def paramName (part : String) : Option String :=
  match part.toList with
  | '{' :: rest =>
      if rest.getLast? = some '}' then
        let inner := rest.dropLast
        if inner ≠ [] ∧ inner.all wordChar then some (String.mk inner)
        else none
      else none
  | _ => none

/-- `PathMatcher._compile_pattern` (routing.py 48–83): split the pattern on
`/`, skip empty parts, turn `{name}` parts into captures and anything else
into an escaped literal, collecting parameter names in order.  It is total:
no duplicate-name (or any other) rejection exists. -/
def compilePattern (pattern : String) : List Seg × List String :=
  (splitSlash pattern).foldl
    (fun acc part =>
      if part = "" then acc
      else
        match paramName part with
        | some n => (acc.1 ++ [Seg.param n], acc.2 ++ [n])
        | none => (acc.1 ++ [Seg.lit part], acc.2))
    ([], [])

/-- The compiled regex `^/seg₁/…/segₙ$` applied to a path's `/`-separated
pieces: literals byte-exact, captures any nonempty piece; returns the
captured groups in order. -/
def matchSegs : List Seg → List String → Option (List String)
  | [], [] => some []
  | Seg.lit l :: ss, p :: ps =>
      if p = l then matchSegs ss ps else none
  | Seg.param _ :: ss, p :: ps =>
      if p = "" then none
      else (matchSegs ss ps).map (fun caps => p :: caps)
  | _, _ => none

/-- `PathMatcher.match` parameter extraction (routing.py 98–103):
`params[name] = match.group(i + 1)` in order — a duplicated name is
overwritten by its later capture. -/
def buildParams (names caps : List String) : List (String × String) :=
  (names.zip caps).foldl (fun d p => setKey d p.1 p.2) []

/-- `PathMatcher.match` (routing.py 85–103): anchor at a leading `/`,
match the remaining pieces, build the params dict. -/
def matcherMatch (pattern path : String) : Option (List (String × String)) :=
  let c := compilePattern pattern
  match path.toList with
  | '/' :: rest =>
      let pieces :=
        if rest = [] then []
        else (splitSlashChars rest).map (fun l => String.mk l)
      (matchSegs c.1 pieces).map (fun caps => buildParams c.2 caps)
  | _ => none

/-- C6 counterexample: the pattern `"/a/{x}/b/{x}"` with a duplicated
parameter name compiles (no error path exists) into a usable matcher, and
matching `"/a/1/b/2"` binds `x` to the last capture `"2"`. -/
theorem pattern_duplicate_names_counterexample :
    (compilePattern "/a/{x}/b/{x}").2 = ["x", "x"] ∧
    matcherMatch "/a/{x}/b/{x}" "/a/1/b/2" = some [("x", "2")] := by
  constructor <;> rfl

/-- C6 as amended: compilation accepts duplicate parameter names and the
resulting matcher is usable — it matches any `/a/<v1>/b/<v2>` with nonempty
segments, binding the duplicated name to the last matching segment. -/
theorem pattern_duplicate_names_amended (v1 v2 : String)
    (h1 : v1 ≠ "") (h2 : v2 ≠ "") :
    matchSegs (compilePattern "/a/{x}/b/{x}").1 ["a", v1, "b", v2] =
      some [v1, v2] ∧
    buildParams (compilePattern "/a/{x}/b/{x}").2 [v1, v2] = [("x", v2)] ∧
    List.lookup "x"
      (buildParams (compilePattern "/a/{x}/b/{x}").2 [v1, v2]) = some v2 := by
  have hc : compilePattern "/a/{x}/b/{x}" =
      ([Seg.lit "a", Seg.param "x", Seg.lit "b", Seg.param "x"],
        ["x", "x"]) := by rfl
  have hm : matchSegs (compilePattern "/a/{x}/b/{x}").1 ["a", v1, "b", v2] =
      some [v1, v2] := by
    rw [hc]
    simp [matchSegs, h1, h2]
  have hb : buildParams (compilePattern "/a/{x}/b/{x}").2 [v1, v2] =
      [("x", v2)] := by
    rw [hc]
    simp [buildParams, setKey]
  exact ⟨hm, hb, by rw [hb]; rfl⟩

/-- Witness for the amended C6 at `v1 = "1"`, `v2 = "2"`. -/
theorem pattern_duplicate_names_amended_witness :
    (("1" : String) ≠ "" ∧ ("2" : String) ≠ "") ∧
    matchSegs (compilePattern "/a/{x}/b/{x}").1 ["a", "1", "b", "2"] =
      some ["1", "2"] ∧
    buildParams (compilePattern "/a/{x}/b/{x}").2 ["1", "2"] = [("x", "2")] ∧
    List.lookup "x"
      (buildParams (compilePattern "/a/{x}/b/{x}").2 ["1", "2"]) =
      some "2" :=
  ⟨⟨by decide, by decide⟩,
    pattern_duplicate_names_amended "1" "2" (by decide) (by decide)⟩

/-- `RouteConfig` (config.py): the fields the router consults. -/
structure RouteConfig where
  id : String
  path_pattern : String
  methods : List String
  upstream_url : String := ""
  auth_required : Bool := false
  auth_roles : List String := []
  deriving Repr, DecidableEq

/-- `Router._normalize_path` (routing.py 199–220): ensure a leading `/`,
strip one trailing `/` unless the path is exactly `/`. -/
def normalizePath (path : String) : String :=
  let cs := path.toList
  let cs1 := match cs with
    | '/' :: _ => cs
    | _ => '/' :: cs
  let cs2 :=
    if cs1.length > 1 ∧ cs1.getLast? = some '/' then cs1.dropLast else cs1
  String.mk cs2

/-- `str.upper()`, character-wise. -/
def upperStr (s : String) : String := String.mk (s.toList.map Char.toUpper)

/-- `Router.match_route` (routing.py 162–197): scan the routes in priority
order; on a path match, return the route iff `method.upper()` is among the
uppercased configured methods, else keep scanning. -/
def matchRoute (routes : List RouteConfig) (path method : String) :
    Option (RouteConfig × List (String × String)) :=
  routes.findSome? (fun r =>
    match matcherMatch r.path_pattern (normalizePath path) with
    | some ps =>
        if upperStr method ∈ r.methods.map upperStr then some (r, ps)
        else none
    | none => none)

/-- C10: `match_route` succeeds iff some route matches the path and the
uppercased request method equals the uppercase of one of its configured
methods; in particular `["GET"]` accepts `"get"` and `["get"]` accepts
`"GET"`. -/
theorem matchRoute_method_case_insensitive
    (routes : List RouteConfig) (path method : String) :
    ((matchRoute routes path method).isSome = true ↔
      ∃ r ∈ routes,
        (matcherMatch r.path_pattern (normalizePath path)).isSome = true ∧
          upperStr method ∈ r.methods.map upperStr) ∧
    (matchRoute [⟨"r1", "/a", ["GET"], "", false, []⟩] "/a" "get").isSome
      = true ∧
    (matchRoute [⟨"r1", "/a", ["get"], "", false, []⟩] "/a" "GET").isSome
      = true := by
  refine ⟨?_, by rfl, by rfl⟩
  induction routes with
  | nil => simp [matchRoute]
  | cons r rs ih =>
      simp only [matchRoute, List.findSome?_cons] at ih ⊢
      cases hm : matcherMatch r.path_pattern (normalizePath path) with
      | none =>
          simp only [hm]
          rw [ih]
          constructor
          · rintro ⟨r', hr', hm', hmeth⟩
            exact ⟨r', List.mem_cons_of_mem r hr', hm', hmeth⟩
          · rintro ⟨r', hr', hm', hmeth⟩
            rcases List.mem_cons.mp hr' with rfl | hr'
            · rw [hm] at hm'; simp at hm'
            · exact ⟨r', hr', hm', hmeth⟩
      | some ps =>
          simp only [hm]
          by_cases hmeth : upperStr method ∈ r.methods.map upperStr
          · simp only [if_pos hmeth, Option.isSome_some, true_iff]
            exact ⟨r, List.mem_cons_self r rs, by rw [hm]; rfl, hmeth⟩
          · simp only [if_neg hmeth]
            rw [ih]
            constructor
            · rintro ⟨r', hr', hm', hmeth'⟩
              exact ⟨r', List.mem_cons_of_mem r hr', hm', hmeth'⟩
            · rintro ⟨r', hr', hm', hmeth'⟩
              rcases List.mem_cons.mp hr' with rfl | hr'
              · exact absurd hmeth' hmeth
              · exact ⟨r', hr', hm', hmeth'⟩

/-! ### C8 — refresh timing
(`AuthenticationMiddleware.process`, auth.py 475–591;
`TokenRefresher`, auth.py 286–357) -/

/-- `TokenRefresher.should_refresh` (auth.py 312–322). -/
def shouldRefreshAt (expires_at now : ℚ) (threshold : ℕ) : Bool :=
  expires_at - now < threshold

/-- `TokenRefresher.refresh` (auth.py 324–357): when due, extend
`expires_at` to `now + token_ttl`, set `last_accessed_at := now` and update
the store; the returned flag says whether a new token was produced. -/
def refreshSession (d : SessionData) (now : ℚ) (ttl threshold : ℕ) :
    SessionData × Bool :=
  if shouldRefreshAt d.expires_at now threshold then
    ({ d with expires_at := now + (ttl : ℚ), last_accessed_at := now }, true)
  else (d, false)

/-- Observable effects of one pass through
`AuthenticationMiddleware.process`, in order. -/
inductive AuthEvent where
  | storeUpdate
  | callNext
  | return401
  | return403
  | setCookie (max_age : ℕ) (httponly secure : Bool) (samesite : String)
  deriving Repr, DecidableEq

/-- Effect order of `AuthenticationMiddleware.process` (auth.py 475–591),
with the branch outcomes as booleans: no route / no auth required →
pass-through; missing or invalid token → 401; unauthorized → 403; otherwise
the refresher (when enabled and due) updates the session in the store
*before* `next_handler` runs, and the refreshed cookie
(`max_age = token_ttl`, HttpOnly, Secure, SameSite=Lax) is attached after
the downstream response exists. -/
def authProcessTrace (routeMatched authRequired tokenPresent valid
    authorized refreshEnabled shouldRef : Bool) (token_ttl : ℕ) :
    List AuthEvent :=
  if !routeMatched then [.callNext]
  else if !authRequired then [.callNext]
  else if !tokenPresent then [.return401]
  else if !valid then [.return401]
  else if !authorized then [.return403]
  else if refreshEnabled && shouldRef then
    [.storeUpdate, .callNext, .setCookie token_ttl true true "Lax"]
  else [.callNext]

/-- C8 counterexample: with refresh enabled and due on an authenticated,
authorized request, the store update precedes the downstream call — the
index of `storeUpdate` in the trace is strictly below that of `callNext`,
contradicting "only after the downstream handler has produced a
response". -/
theorem refresh_on_the_way_out_counterexample :
    authProcessTrace true true true true true true true 3600 =
      [.storeUpdate, .callNext, .setCookie 3600 true true "Lax"] ∧
    (authProcessTrace true true true true true true true
        3600).indexOf .storeUpdate <
      (authProcessTrace true true true true true true true
        3600).indexOf .callNext := by
  constructor <;> decide

/-- C8 as amended: the refresh store update happens at most once per
request, exactly when refresh is enabled and due on a request that passed
authentication and authorization (no 401/403 in the trace), and it happens
immediately *before* the downstream call; the refreshed token cookie with
`Max-Age = token_ttl`, HttpOnly, Secure, SameSite=Lax is attached after the
downstream response.  `TokenRefresher.refresh` sets
`expires_at = now + token_ttl` and `last_accessed_at = now`. -/
theorem refresh_timing_amended (rm ar tp v az re sr : Bool) (ttl : ℕ)
    (d : SessionData) (now : ℚ) (threshold : ℕ) :
    ((AuthEvent.storeUpdate ∈ authProcessTrace rm ar tp v az re sr ttl) ↔
      (rm = true ∧ ar = true ∧ tp = true ∧ v = true ∧ az = true ∧
        re = true ∧ sr = true)) ∧
    (AuthEvent.storeUpdate ∈ authProcessTrace rm ar tp v az re sr ttl →
      authProcessTrace rm ar tp v az re sr ttl =
        [.storeUpdate, .callNext, .setCookie ttl true true "Lax"]) ∧
    (shouldRefreshAt d.expires_at now threshold = true →
      (refreshSession d now ttl threshold).1.expires_at = now + (ttl : ℚ) ∧
        (refreshSession d now ttl threshold).1.last_accessed_at = now) := by
  refine ⟨?_, ?_, ?_⟩
  · cases rm <;> cases ar <;> cases tp <;> cases v <;> cases az <;>
      cases re <;> cases sr <;> simp [authProcessTrace]
  · cases rm <;> cases ar <;> cases tp <;> cases v <;> cases az <;>
      cases re <;> cases sr <;> simp [authProcessTrace]
  · intro h
    simp [refreshSession, h]

/-- Witness for the amended C8: all branch conditions true,
`token_ttl = 3600`, a session refreshed at `now = 10` with
`expires_at = 100`, `threshold = 300`. -/
theorem refresh_timing_amended_witness :
    ((AuthEvent.storeUpdate ∈
        authProcessTrace true true true true true true true 3600) ↔
      (true = true ∧ true = true ∧ true = true ∧ true = true ∧
        true = true ∧ true = true ∧ true = true)) ∧
    (AuthEvent.storeUpdate ∈
        authProcessTrace true true true true true true true 3600 →
      authProcessTrace true true true true true true true 3600 =
        [.storeUpdate, .callNext, .setCookie 3600 true true "Lax"]) ∧
    (shouldRefreshAt cexSession.expires_at 10 300 = true →
      (refreshSession cexSession 10 3600 300).1.expires_at =
          (10 : ℚ) + (3600 : ℕ) ∧
        (refreshSession cexSession 10 3600 300).1.last_accessed_at = 10) :=
  refresh_timing_amended true true true true true true true 3600
    cexSession 10 300

end Gateway
